import Mathlib

/-!
Verification development for the `metvae` linear VAE core
(`src/metvae/models/linear_vae.py`).

The Python model is embedded shallowly:

* float tensors become matrices over an abstract linearly ordered field `K`
  (instantiated with `ℚ` for concrete evaluations);
* the transcendental primitives of the tensor library (`torch.exp`,
  `torch.log`, `np.log(2*pi)`, `lgamma`) are bundled in an `Ops K` record of
  abstract scalar functions, so every definition stays computable;
* the reparameterization noise `eps` drawn inside `forward` becomes an
  explicit matrix argument (explicit state passing of the RNG draw);
* `raise ValueError` becomes `Except.error`.

Dimensions: `r` is `input_dim` (`Psi.shape[0]`, the ILR coordinate count),
`c` is the number of compositional features (`Psi.shape[1]`), `h` is
`hidden_dim`, and `N` is the batch size.
-/

open Matrix

/-- Abstract scalar primitives supplied by the tensor library:
`exp`, `log`, the constant `LOG_2_PI = np.log(2.0 * np.pi)`, and the
log-Gamma function used by `torch.distributions.Multinomial`. -/
structure Ops (K : Type) where
  exp : K → K
  log : K → K
  log2pi : K
  lgamma : K → K

variable {K : Type} [LinearOrderedField K] {N r c h : ℕ}

/-- `t.mean(0).sum()` for a 2-D tensor `t`: average each column over the
batch dimension, then sum the column means. -/
def mean0sum (M : Matrix (Fin N) (Fin c) K) : K :=
  ∑ j, (∑ i, M i j) / (N : K)

/-- Parameter state of `LinearVAE` (encoder depth 1, `bias=False`, the
configuration exercised by the claims).  `encoderW` is
`self.encoder.weight` (shape `hidden_dim × input_dim`), `decoderW` is
`self.decoder.weight` (shape `input_dim × hidden_dim`), and `Psi` is the
sparse balance basis buffer. -/
structure LinearVAE (K : Type) (r c h : ℕ) where
  Psi : Matrix (Fin r) (Fin c) K
  encoderW : Matrix (Fin h) (Fin r) K
  decoderW : Matrix (Fin r) (Fin h) K
  variational_logvars : Fin h → K
  log_sigma_sq : K
  likelihood : String
  use_analytic_elbo : Bool

/-- `self.imputer = lambda x: x + 1`, applied elementwise. -/
def imputer (x : Matrix (Fin N) (Fin c) K) : Matrix (Fin N) (Fin c) K :=
  Matrix.of fun i j => x i j + 1

/-- External dependency `catvae.composition.ilr`, modelled from the spec:
take the natural log of the (already imputed) composition and apply the
balance basis as a linear projection, `(Psi @ log(x).t()).t()`. -/
def ilr (ops : Ops K) (x : Matrix (Fin N) (Fin c) K)
    (Psi : Matrix (Fin r) (Fin c) K) : Matrix (Fin N) (Fin r) K :=
  (Matrix.of fun i j => ops.log (x i j)) * Psiᵀ

/-- Result of `recon_model_loglik`: the gaussian branch returns a per-element
tensor of shape `N × r`, the multinomial branch returns a 0-dim scalar. -/
inductive ReconOut (K : Type) (N r : ℕ) where
  | mat : Matrix (Fin N) (Fin r) K → ReconOut K N r
  | scal : K → ReconOut K N r
  deriving DecidableEq

/-- `(-t).mean(0).sum()` applied to a `recon_model_loglik` result (for a
0-dim tensor, `mean(0)` and `sum()` are identities in torch). -/
def ReconOut.negMean0sum : ReconOut K N r → K
  | .mat M => mean0sum (-M)
  | .scal s => -s

/-- Elementwise negation `-t` of a `recon_model_loglik` result. -/
def ReconOut.negate : ReconOut K N r → ReconOut K N r
  | .mat M => .mat (-M)
  | .scal s => .scal (-s)

namespace LinearVAE

/-- `LinearVAE.gaussian_kl`: `0.5 * (1 + z_logvar - z_mean * z_mean -
torch.exp(z_logvar))`, the shared log-variance vector broadcast across the
batch dimension. -/
def gaussian_kl (ops : Ops K) (z_mean : Matrix (Fin N) (Fin h) K)
    (z_logvar : Fin h → K) : Matrix (Fin N) (Fin h) K :=
  Matrix.of fun i j =>
    (1 / 2) * (1 + z_logvar j - z_mean i j * z_mean i j - ops.exp (z_logvar j))

/-- `LinearVAE.recon_model_loglik`, dispatching on the likelihood string.
The gaussian branch needs `x` and `eta` to have the same shape (`c = r`),
otherwise the underlying tensor op raises a shape error; its unused
`x_in` assignment is dead code and is omitted.  The multinomial branch is
`Multinomial(logits=(Psi.t() @ eta.t()).t()).log_prob(x).mean()`.  The
lognormal branch fails on every call before computing anything: its first
line calls `F.logsoftmax`, a function that does not exist in
`torch.nn.functional` (the real name is `log_softmax`, which moreover takes
`dim`, not `axis`), so an AttributeError propagates; the branch is embedded
as that unconditional evaluation error. -/
def recon_model_loglik (ops : Ops K) (m : LinearVAE K r c h)
    (x : Matrix (Fin N) (Fin c) K) (eta : Matrix (Fin N) (Fin r) K) :
    Except String (ReconOut K N r) :=
  if m.likelihood = "gaussian" then
    if hcr : c = r then
      .ok (.mat (Matrix.of fun i j =>
        (1 / 2) * (-((x i (Fin.cast hcr.symm j) - eta i j) ^ 2)
            / ops.exp m.log_sigma_sq
          - ops.log2pi - m.log_sigma_sq)))
    else .error "shape mismatch between x and eta"
  else if m.likelihood = "multinomial" then
    let logits : Matrix (Fin N) (Fin c) K := eta * m.Psi
    Except.ok (.scal ((∑ i, (ops.lgamma ((∑ j, x i j) + 1)
        - (∑ j, ops.lgamma (x i j + 1))
        + ∑ j, x i j * (logits i j - ops.log (∑ k, ops.exp (logits i k)))))
      / (N : K)))
  else if m.likelihood = "lognormal" then
    .error "module torch.nn.functional has no attribute logsoftmax"
  else .error (m.likelihood ++ " has not be properly specified.")

/-- `LinearVAE.analytic_exp_recon_loss`: the closed-form expected
reconstruction log-likelihood of the analytic ELBO. -/
def analytic_exp_recon_loss (ops : Ops K) (m : LinearVAE K r c h)
    (x : Matrix (Fin N) (Fin r) K) : K :=
  let tr_wdw := Matrix.trace (m.decoderW *
    (Matrix.diagonal (fun j => ops.exp (m.variational_logvars j)) * m.decoderWᵀ))
  let wv := m.decoderW * m.encoderW
  let vtwtwv := wvᵀ * wv
  let xtvtwtwvx := mean0sum (Matrix.hadamard x (x * vtwtwv))
  let xtwvx := 2 * mean0sum (Matrix.hadamard x (x * wv))
  let xtx := mean0sum (Matrix.hadamard x x)
  let exp_recon_loss := -(tr_wdw + xtvtwtwvx - xtwvx + xtx)
      / (2 * ops.exp m.log_sigma_sq)
    - (r : K) * (ops.log2pi + m.log_sigma_sq) / 2
  exp_recon_loss

/-- `LinearVAE.analytic_elbo`. -/
def analytic_elbo (ops : Ops K) (m : LinearVAE K r c h)
    (x : Matrix (Fin N) (Fin r) K) (z_mean : Matrix (Fin N) (Fin h) K) : K :=
  mean0sum (-(gaussian_kl ops z_mean m.variational_logvars))
    - analytic_exp_recon_loss ops m x

/-- `LinearVAE.encode`. -/
def encode (ops : Ops K) (m : LinearVAE K r c h)
    (x : Matrix (Fin N) (Fin c) K) : Matrix (Fin N) (Fin h) K :=
  ilr ops (imputer x) m.Psi * m.encoderWᵀ

/-- `LinearVAE.forward`, with the standard-normal draw `eps` passed
explicitly. -/
def forward (ops : Ops K) (m : LinearVAE K r c h)
    (x : Matrix (Fin N) (Fin c) K) (eps : Matrix (Fin N) (Fin h) K) :
    Except String K :=
  let x_ := ilr ops (imputer x) m.Psi
  let z_mean := x_ * m.encoderWᵀ
  if m.use_analytic_elbo = false then
    let z_sample : Matrix (Fin N) (Fin h) K := Matrix.of fun i j =>
      z_mean i j + eps i j * ops.exp ((1 / 2) * m.variational_logvars j)
    let x_out := z_sample * m.decoderWᵀ
    let kl_div := mean0sum (-(gaussian_kl ops z_mean m.variational_logvars))
    Except.map (fun rl => kl_div + rl.negMean0sum)
      (recon_model_loglik ops m x x_out)
  else .ok (analytic_elbo ops m x_ z_mean)

/-- `LinearVAE.get_reconstruction_loss`, with the standard-normal draw `eps`
passed explicitly (consumed only on the sampling path). -/
def get_reconstruction_loss (ops : Ops K) (m : LinearVAE K r c h)
    (x : Matrix (Fin N) (Fin c) K) (eps : Matrix (Fin N) (Fin h) K) :
    Except String (ReconOut K N r) :=
  let x_ := ilr ops (imputer x) m.Psi
  if m.use_analytic_elbo = true then
    .ok (.scal (-analytic_exp_recon_loss ops m x_))
  else
    let z_mean := x_ * m.encoderWᵀ
    let z_sample : Matrix (Fin N) (Fin h) K := Matrix.of fun i j =>
      z_mean i j + eps i j * ops.exp ((1 / 2) * m.variational_logvars j)
    let x_out := z_sample * m.decoderWᵀ
    Except.map (fun rl => rl.negate) (recon_model_loglik ops m x x_out)

end LinearVAE

namespace LinearBatchVAE

/-- The latent mean computed inside `LinearBatchVAE.forward` and
`LinearBatchVAE.get_reconstruction_loss`: the batch offset
`(Psi @ B.t()).t()` is subtracted from the ILR-transformed imputed input
before the encoder is applied. -/
def z_mean (ops : Ops K) (m : LinearVAE K r c h)
    (x : Matrix (Fin N) (Fin c) K) (B : Matrix (Fin N) (Fin c) K) :
    Matrix (Fin N) (Fin h) K :=
  (ilr ops (imputer x) m.Psi - B * m.Psiᵀ) * m.encoderWᵀ

/-- `LinearBatchVAE.encode`: identical to the base encode; the batch-effect
subtraction in its body is commented out in the source, so it takes no `B`. -/
def encode (ops : Ops K) (m : LinearVAE K r c h)
    (x : Matrix (Fin N) (Fin c) K) : Matrix (Fin N) (Fin h) K :=
  ilr ops (imputer x) m.Psi * m.encoderWᵀ

/-- `LinearBatchVAE.forward`: always the sampling path; subtracts the batch
offset before encoding and adds the same offset to the decoder output
before the reconstruction log-likelihood. -/
def forward (ops : Ops K) (m : LinearVAE K r c h)
    (x : Matrix (Fin N) (Fin c) K) (B : Matrix (Fin N) (Fin c) K)
    (eps : Matrix (Fin N) (Fin h) K) : Except String K :=
  let batch_effects := B * m.Psiᵀ
  let zm := z_mean ops m x B
  let z_sample : Matrix (Fin N) (Fin h) K := Matrix.of fun i j =>
    zm i j + eps i j * ops.exp ((1 / 2) * m.variational_logvars j)
  let x_out := z_sample * m.decoderWᵀ + batch_effects
  let kl_div := mean0sum (-(LinearVAE.gaussian_kl ops zm m.variational_logvars))
  Except.map (fun rl => kl_div + rl.negMean0sum)
    (LinearVAE.recon_model_loglik ops m x x_out)

/-- `LinearBatchVAE.get_reconstruction_loss`: decodes the latent mean
directly (no reparameterization noise is drawn). -/
def get_reconstruction_loss (ops : Ops K) (m : LinearVAE K r c h)
    (x : Matrix (Fin N) (Fin c) K) (B : Matrix (Fin N) (Fin c) K) :
    Except String (ReconOut K N r) :=
  let batch_effects := B * m.Psiᵀ
  let zm := z_mean ops m x B
  let eta := zm * m.decoderWᵀ + batch_effects
  Except.map (fun rl => rl.negate) (LinearVAE.recon_model_loglik ops m x eta)

end LinearBatchVAE

/-- A matrix whose dimensions are runtime data, used to model the
construction-time shape computations of `LinearVAE.__init__` (where the
basis, and hence `input_dim`, is not known statically). -/
structure PMat (K : Type) where
  rows : ℕ
  cols : ℕ
  entry : Fin rows → Fin cols → K

/-- The state stored by `LinearVAE.__init__`: the recomputed `input_dim`,
the `Psi` buffer, and the weight matrices of the encoder stack and the
decoder (an `nn.Linear(a, b)` weight has shape `b × a`). -/
structure LinearVAEInit (K : Type) where
  input_dim : ℕ
  hidden_dim : ℕ
  likelihood : String
  use_analytic_elbo : Bool
  Psi : PMat K
  encoderLayers : List (PMat K)
  decoderW : PMat K
  variational_logvars : Fin hidden_dim → K
  log_sigma_sq : K

/-- `LinearVAE.__init__`.  `draw a b` stands for the random
`normal_(0.0, init_scale)` weight initialization (explicit state passing of
the RNG), and `build` is the external
`sparse_balance_basis(random_linkage(input_dim))[0]` provider invoked only
when no basis is supplied.  `self.input_dim = Psi.shape[0]` is recomputed
from the basis actually used, the caller-supplied `input_dim` argument is
only forwarded to `build`. -/
def mkLinearVAE (draw : (a b : ℕ) → Fin a → Fin b → K)
    (input_dim hidden_dim : ℕ) (use_analytic_elbo : Bool)
    (encoder_depth : ℕ) (likelihood : String)
    (basis : Option (PMat K)) (build : ℕ → PMat K) : LinearVAEInit K :=
  let psi := match basis with
    | some b => b
    | none => build input_dim
  { input_dim := psi.rows
    hidden_dim := hidden_dim
    likelihood := likelihood
    use_analytic_elbo := use_analytic_elbo
    Psi := psi
    encoderLayers :=
      if 1 < encoder_depth then
        ⟨hidden_dim, psi.rows, draw hidden_dim psi.rows⟩ ::
          List.replicate (encoder_depth - 1)
            ⟨hidden_dim, hidden_dim, draw hidden_dim hidden_dim⟩
      else [⟨hidden_dim, psi.rows, draw hidden_dim psi.rows⟩]
    decoderW := ⟨psi.rows, hidden_dim, draw psi.rows hidden_dim⟩
    variational_logvars := fun _ => 0
    log_sigma_sq := 0 }

lemma mean0sum_zero : mean0sum (0 : Matrix (Fin N) (Fin c) K) = 0 := by
  simp [mean0sum]

lemma mean0sum_add (A B : Matrix (Fin N) (Fin c) K) :
    mean0sum (A + B) = mean0sum A + mean0sum B := by
  simp [mean0sum, Matrix.add_apply, Finset.sum_add_distrib, add_div]

lemma mean0sum_sub (A B : Matrix (Fin N) (Fin c) K) :
    mean0sum (A - B) = mean0sum A - mean0sum B := by
  simp [mean0sum, Matrix.sub_apply, Finset.sum_sub_distrib, sub_div]

lemma mean0sum_smul (a : K) (A : Matrix (Fin N) (Fin c) K) :
    mean0sum (a • A) = a * mean0sum A := by
  simp [mean0sum, Matrix.smul_apply, smul_eq_mul, ← Finset.mul_sum, mul_div_assoc]

lemma mean0sum_eq_sum_div (A : Matrix (Fin N) (Fin c) K) :
    mean0sum A = (∑ i, ∑ j, A i j) / (N : K) := by
  rw [mean0sum, ← Finset.sum_div, Finset.sum_comm]

/-- C1.  `analytic_exp_recon_loss(x)` is exactly
`-(tr(W·diag(exp(logvar))·Wᵀ) + q)/(2·exp(log_sigma_sq))
 - D·(log(2π)+log_sigma_sq)/2` where `q` is the batch-averaged,
feature-summed combination `xᵀVᵀWᵀWVx - 2·xᵀWVx + xᵀx`; with a zero decoder
weight it reduces to `-D·(log(2π)+log_sigma_sq)/2 - mean(x²)/(2·exp(log_sigma_sq))`;
and `analytic_elbo(x, z_mean)` is the negated-KL term minus the expected
log-likelihood. -/
theorem claim_C1 (ops : Ops K) (m : LinearVAE K r c h)
    (x : Matrix (Fin N) (Fin r) K) (zm : Matrix (Fin N) (Fin h) K) :
    LinearVAE.analytic_exp_recon_loss ops m x =
      -(Matrix.trace (m.decoderW *
          (Matrix.diagonal (fun j => ops.exp (m.variational_logvars j))
            * m.decoderWᵀ))
        + mean0sum
            (Matrix.hadamard x
                (x * ((m.decoderW * m.encoderW)ᵀ * (m.decoderW * m.encoderW)))
              - (2 : K) • Matrix.hadamard x (x * (m.decoderW * m.encoderW))
              + Matrix.hadamard x x))
        / (2 * ops.exp m.log_sigma_sq)
      - (r : K) * (ops.log2pi + m.log_sigma_sq) / 2
    ∧ LinearVAE.analytic_exp_recon_loss ops { m with decoderW := 0 } x =
      -((r : K) * (ops.log2pi + m.log_sigma_sq) / 2)
        - mean0sum (Matrix.hadamard x x) / (2 * ops.exp m.log_sigma_sq)
    ∧ LinearVAE.analytic_elbo ops m x zm =
      mean0sum (-(LinearVAE.gaussian_kl ops zm m.variational_logvars))
        - LinearVAE.analytic_exp_recon_loss ops m x := by
  refine ⟨?_, ?_, rfl⟩
  · simp only [LinearVAE.analytic_exp_recon_loss, mean0sum_add, mean0sum_sub,
      mean0sum_smul]
    ring
  · simp only [LinearVAE.analytic_exp_recon_loss, Matrix.zero_mul,
      Matrix.mul_zero, Matrix.trace_zero, Matrix.hadamard_zero, mean0sum_zero]
    ring

/-- C2.  With `use_analytic_elbo = False`, `forward(x)` is `kl_div +
recon_loss`: the per-dimension `0.5*(1 + logvar - mean^2 - exp(logvar))`
negated, summed over the `hidden_dim` latent dimensions and averaged over
the batch, plus the negated reconstruction log-likelihood of `x` against
the decoder output on the reparameterized sample
`z_mean + eps * exp(0.5*logvar)`. -/
theorem claim_C2 (ops : Ops K) (m : LinearVAE K r c h)
    (x : Matrix (Fin N) (Fin c) K) (eps : Matrix (Fin N) (Fin h) K) :
    LinearVAE.forward ops { m with use_analytic_elbo := false } x eps =
      Except.map (fun rl =>
          (∑ i, ∑ j, -((1 / 2) * (1 + m.variational_logvars j
              - LinearVAE.encode ops m x i j * LinearVAE.encode ops m x i j
              - ops.exp (m.variational_logvars j)))) / (N : K)
            + rl.negMean0sum)
        (LinearVAE.recon_model_loglik ops m x
          ((Matrix.of fun i j => LinearVAE.encode ops m x i j
              + eps i j * ops.exp ((1 / 2) * m.variational_logvars j))
            * m.decoderWᵀ)) := by
  show Except.map _ _ = _
  congr 1
  funext rl
  congr 1
  rw [mean0sum_eq_sum_div]
  exact rfl

/-- C3.  `LinearBatchVAE.forward(x, B)` forms the offset `(Psi·Bᵀ)ᵀ`,
subtracts it from the ILR-transformed imputed input before the encoder,
adds the same offset to the decoder output before the reconstruction
log-likelihood, and returns the sampling-path KL term plus the negated
reconstruction log-likelihood. -/
theorem claim_C3 (ops : Ops K) (m : LinearVAE K r c h)
    (x B : Matrix (Fin N) (Fin c) K) (eps : Matrix (Fin N) (Fin h) K) :
    LinearBatchVAE.forward ops m x B eps =
      (let offset := (m.Psi * Bᵀ)ᵀ
       let zm := (ilr ops (imputer x) m.Psi - offset) * m.encoderWᵀ
       Except.map (fun rl =>
           mean0sum (-(LinearVAE.gaussian_kl ops zm m.variational_logvars))
             + rl.negMean0sum)
         (LinearVAE.recon_model_loglik ops m x
           ((Matrix.of fun i j =>
               zm i j + eps i j * ops.exp ((1 / 2) * m.variational_logvars j))
             * m.decoderWᵀ + offset))) := by
  simp only [LinearBatchVAE.forward, LinearBatchVAE.z_mean,
    Matrix.transpose_mul, Matrix.transpose_transpose]

/-- C4, counterexample.  At a concrete batch-aware model the encoded latent
mean difference between two batch matrices is not `(Psi·(B1-B2)ᵀ)ᵀ` (the
encoder weight also acts on the offset difference). -/
def qops : Ops ℚ :=
  { exp := fun _ => 1, log := fun _ => 0, log2pi := 0, lgamma := fun _ => 0 }

def mQ : LinearVAE ℚ 1 1 1 :=
  { Psi := Matrix.of fun _ _ => 1
    encoderW := Matrix.of fun _ _ => 2
    decoderW := Matrix.of fun _ _ => 1
    variational_logvars := fun _ => 0
    log_sigma_sq := 0
    likelihood := "gaussian"
    use_analytic_elbo := false }

theorem claim_C4_cex :
    ¬ (LinearBatchVAE.z_mean qops mQ 0 (Matrix.of fun _ _ => 1)
          - LinearBatchVAE.z_mean qops mQ 0 0 =
        (mQ.Psi * ((Matrix.of fun _ _ => (1 : ℚ)) - 0)ᵀ)ᵀ) := by
  intro hEq
  have h00 := congrFun (congrFun hEq 0) 0
  simp [LinearBatchVAE.z_mean, qops, mQ, ilr, imputer, Matrix.mul_apply,
    Matrix.sub_apply, Matrix.transpose_apply, Fin.sum_univ_one] at h00
  norm_num at h00

/-- C4, amended.  The latent mean computed by the batch-aware forward pass
differs between two batch matrices by the ILR-projected difference
`(Psi·(B1-B2)ᵀ)ᵀ` pushed through the encoder weight and negated:
`z_mean(B1) - z_mean(B2) = -((Psi·(B1-B2)ᵀ)ᵀ · encoderWᵀ)`. -/
theorem claim_C4 (ops : Ops K) (m : LinearVAE K r c h)
    (x B1 B2 : Matrix (Fin N) (Fin c) K) :
    LinearBatchVAE.z_mean ops m x B1 - LinearBatchVAE.z_mean ops m x B2 =
      -((m.Psi * (B1 - B2)ᵀ)ᵀ * m.encoderWᵀ) := by
  simp only [LinearBatchVAE.z_mean, Matrix.transpose_mul,
    Matrix.transpose_transpose, ← Matrix.sub_mul]
  rw [← Matrix.neg_mul]
  congr 1
  rw [Matrix.sub_mul]
  abel

/-- C5.  With the gaussian likelihood and matching shapes,
`recon_model_loglik(x, eta)` is elementwise
`0.5*(-(x-eta)^2/exp(log_sigma_sq) - log(2*pi) - log_sigma_sq)`, with no
transform applied to `x` in the returned value. -/
theorem claim_C5 (ops : Ops K) (m : LinearVAE K r r h)
    (x eta : Matrix (Fin N) (Fin r) K) :
    LinearVAE.recon_model_loglik ops { m with likelihood := "gaussian" } x eta =
      Except.ok (.mat (Matrix.of fun i j =>
        (1 / 2) * (-((x i j - eta i j) ^ 2) / ops.exp m.log_sigma_sq
          - ops.log2pi - m.log_sigma_sq))) := by
  unfold LinearVAE.recon_model_loglik
  rw [if_pos rfl, dif_pos rfl]
  rfl

/-- C6 (code-bug evidence).  The lognormal branch of `recon_model_loglik`
never returns the claimed mean log-density: the source immediately calls
`F.logsoftmax` — a name absent from `torch.nn.functional` — so every
evaluation with `likelihood = lognormal` fails with an AttributeError
(here, the corresponding `Except.error`) for every `x` and `eta`,
including inputs with strictly positive entries. -/
theorem claim_C6 (ops : Ops K) (m : LinearVAE K r c h)
    (x : Matrix (Fin N) (Fin c) K) (eta : Matrix (Fin N) (Fin r) K) :
    LinearVAE.recon_model_loglik ops { m with likelihood := "lognormal" } x eta =
      Except.error "module torch.nn.functional has no attribute logsoftmax" := by
  unfold LinearVAE.recon_model_loglik
  rw [show ({ m with likelihood := "lognormal" } :
      LinearVAE K r c h).likelihood = "lognormal" from rfl]
  rw [if_neg (by decide), if_neg (by decide), if_pos rfl]

/-- C7.  A likelihood string outside {gaussian, multinomial, lognormal} is
stored unvalidated at construction, and `recon_model_loglik` (hence the
sampling `forward` path) fails with an error message containing the invalid
likelihood name. -/
theorem claim_C7 (ops : Ops K) (lik : String)
    (h1 : lik ≠ "gaussian") (h2 : lik ≠ "multinomial") (h3 : lik ≠ "lognormal")
    (draw : (a b : ℕ) → Fin a → Fin b → K) (idim hdim : ℕ) (uae : Bool)
    (depth : ℕ) (basis : Option (PMat K)) (build : ℕ → PMat K)
    (m : LinearVAE K r c h) (x : Matrix (Fin N) (Fin c) K)
    (eta : Matrix (Fin N) (Fin r) K) (eps : Matrix (Fin N) (Fin h) K) :
    (mkLinearVAE draw idim hdim uae depth lik basis build).likelihood = lik
    ∧ LinearVAE.recon_model_loglik ops { m with likelihood := lik } x eta =
        Except.error (lik ++ " has not be properly specified.")
    ∧ (∃ pre post, lik ++ " has not be properly specified." = pre ++ lik ++ post)
    ∧ LinearVAE.forward ops
          { m with likelihood := lik, use_analytic_elbo := false } x eps =
        Except.error (lik ++ " has not be properly specified.") := by
  have hrec : ∀ (m2 : LinearVAE K r c h), m2.likelihood = lik →
      ∀ (x2 : Matrix (Fin N) (Fin c) K) (eta2 : Matrix (Fin N) (Fin r) K),
      LinearVAE.recon_model_loglik ops m2 x2 eta2 =
        Except.error (lik ++ " has not be properly specified.") := by
    intro m2 hm2 x2 eta2
    unfold LinearVAE.recon_model_loglik
    rw [hm2, if_neg h1, if_neg h2, if_neg h3]
  refine ⟨rfl, hrec _ rfl x eta,
    ⟨"", " has not be properly specified.", by simp⟩, ?_⟩
  show Except.map _ _ = _
  rw [hrec _ rfl x _]
  rfl

theorem claim_C7_witness :
    (("poisson" : String) ≠ "gaussian" ∧ ("poisson" : String) ≠ "multinomial"
      ∧ ("poisson" : String) ≠ "lognormal") ∧
    ((mkLinearVAE (fun _ _ _ _ => (0 : ℚ)) 3 2 true 1 "poisson" none
          (fun n => ⟨n, n, fun _ _ => 0⟩)).likelihood = "poisson"
    ∧ LinearVAE.recon_model_loglik qops { mQ with likelihood := "poisson" }
          (0 : Matrix (Fin 1) (Fin 1) ℚ) (0 : Matrix (Fin 1) (Fin 1) ℚ) =
        Except.error ("poisson" ++ " has not be properly specified.")
    ∧ (∃ pre post,
        "poisson" ++ " has not be properly specified." = pre ++ "poisson" ++ post)
    ∧ LinearVAE.forward qops
          { mQ with likelihood := "poisson", use_analytic_elbo := false }
          (0 : Matrix (Fin 1) (Fin 1) ℚ) (0 : Matrix (Fin 1) (Fin 1) ℚ) =
        Except.error ("poisson" ++ " has not be properly specified.")) :=
  ⟨⟨by decide, by decide, by decide⟩,
    claim_C7 qops "poisson" (by decide) (by decide) (by decide)
      (fun _ _ _ _ => (0 : ℚ)) 3 2 true 1 none (fun n => ⟨n, n, fun _ _ => 0⟩)
      mQ 0 0 0⟩

/-- C8.  `__init__` recomputes `input_dim` as `Psi.shape[0]` of the basis
actually used (supplied, or built from the caller's `input_dim` when none is
supplied); with a supplied basis the caller's `input_dim` argument is
irrelevant; the encoder's first layer and the decoder are sized from the
recomputed value; and the stored `Psi` buffer is exactly the basis used. -/
theorem claim_C8 (draw : (a b : ℕ) → Fin a → Fin b → K)
    (idim hdim : ℕ) (uae : Bool) (depth : ℕ) (lik : String)
    (basis : Option (PMat K)) (build : ℕ → PMat K) :
    (mkLinearVAE draw idim hdim uae depth lik basis build).input_dim =
        (match basis with | some b => b | none => build idim).rows
    ∧ (mkLinearVAE draw idim hdim uae depth lik basis build).Psi =
        (match basis with | some b => b | none => build idim)
    ∧ (∀ idim2 b,
        (mkLinearVAE draw idim2 hdim uae depth lik (some b) build).input_dim =
          b.rows)
    ∧ ((mkLinearVAE draw idim hdim uae depth lik basis build).encoderLayers.head?.map
          fun p => (p.rows, p.cols)) =
        some (hdim, (mkLinearVAE draw idim hdim uae depth lik basis build).input_dim)
    ∧ (mkLinearVAE draw idim hdim uae depth lik basis build).decoderW.rows =
        (mkLinearVAE draw idim hdim uae depth lik basis build).input_dim
    ∧ (mkLinearVAE draw idim hdim uae depth lik basis build).decoderW.cols = hdim := by
  refine ⟨rfl, rfl, fun _ _ => rfl, ?_, rfl, rfl⟩
  by_cases hd : 1 < depth <;> simp [mkLinearVAE, hd]

/-- C9.  With `use_analytic_elbo = True`, `forward` never consults the
likelihood configuration: two models differing only in the likelihood
string (including invalid names) return the same loss, and the result is
always `ok` (no error raised). -/
theorem claim_C9 (ops : Ops K) (m : LinearVAE K r c h) (lik1 lik2 : String)
    (x : Matrix (Fin N) (Fin c) K) (eps : Matrix (Fin N) (Fin h) K) :
    LinearVAE.forward ops
        { m with likelihood := lik1, use_analytic_elbo := true } x eps =
      LinearVAE.forward ops
        { m with likelihood := lik2, use_analytic_elbo := true } x eps
    ∧ ∃ v, LinearVAE.forward ops
        { m with likelihood := lik1, use_analytic_elbo := true } x eps =
      Except.ok v :=
  ⟨rfl, ⟨_, rfl⟩⟩

/-- C10.  `LinearBatchVAE.get_reconstruction_loss(x, B)` decodes the latent
mean directly (no reparameterization noise enters the computation), whereas
the base class sampling-mode `get_reconstruction_loss` genuinely depends on
the noise draw. -/
theorem claim_C10 :
    (∀ (ops : Ops K) (m : LinearVAE K r c h) (x B : Matrix (Fin N) (Fin c) K),
      LinearBatchVAE.get_reconstruction_loss ops m x B =
        Except.map (fun rl => rl.negate)
          (LinearVAE.recon_model_loglik ops m x
            (LinearBatchVAE.z_mean ops m x B * m.decoderWᵀ + (m.Psi * Bᵀ)ᵀ)))
    ∧ (∃ e1 e2 : Matrix (Fin 1) (Fin 1) ℚ,
        LinearVAE.get_reconstruction_loss qops mQ 0 e1 ≠
          LinearVAE.get_reconstruction_loss qops mQ 0 e2) := by
  constructor
  · intro ops m x B
    simp only [LinearBatchVAE.get_reconstruction_loss, Matrix.transpose_mul,
      Matrix.transpose_transpose]
  · refine ⟨0, Matrix.of fun _ _ => 1, fun hEq => ?_⟩
    simp [LinearVAE.get_reconstruction_loss, LinearVAE.recon_model_loglik,
      mQ, qops, ilr, imputer, Matrix.mul_apply, Fin.sum_univ_one,
      Except.map, ReconOut.negate, funext_iff] at hEq
